import Mathlib

/-!
Verification of the `rusty-kong` finite-state-machine scheduler
(`src/game/rusty_kong/state_machine/mod.rs`).

The Rust module keeps a thread-local record `States { previous, current,
next : GameState }` together with a lazily built vector `STATE_HANDLERS`
of nine `StateHandlers { enter, update, leave, first_update }` entries,
one per `GameState` discriminant, indexed by `state as usize`.  The public
operations are `game_state_go` (write `next`), `game_state_init`
(request `Boot`) and `game_state_update` (one scheduler tick).

Shallow embedding used here:

* `GameState` is the Rust enum; `GameState.ordinal` is the discriminant
  used as the vector index (`state as usize`).
* The per-state callbacks (`boot_enter`, `attract_update`, ...,
  `state_nop`) live in sibling modules whose sources are not part of the
  slice under verification; the scheduler only ever stores and invokes
  them.  They are embedded as opaque identities (`Callback`), and the
  behaviour of an invoked callback is supplied externally by an
  environment `Env : Callback -> Option GameState`: `some t` means the
  callback's net scheduler-visible effect is a final `game_state_go(t)`
  call, `none` means it makes no transition request.  This captures
  exactly the callbacks whose only interaction with the scheduler is
  through `game_state_go` / `game_state_init`.
* The mutable machine state is `Machine`: the three `GameState` fields
  plus the handler vector (whose `first_update` cells mutate).
* Vector indexing `STATE_HANDLERS[state as usize]` panics when out of
  bounds, so the tick function returns `Option`: `none` models a panic.
  Each tick also returns the list of callbacks it invoked, in order,
  so that claims about which callbacks run can be stated.
-/

inductive GameState where
  | None
  | Boot
  | Attract
  | LongIntroduction
  | HowHigh
  | GamePlay
  | PlayerDies
  | PlayerWins
  | KongRetreats
deriving DecidableEq, Fintype, Repr

/-- The vector index used by `get_state_handlers`: `state as usize`,
i.e. the enum discriminant (`None = 0`, then in declaration order). -/
def GameState.ordinal : GameState → Nat
  | .None => 0
  | .Boot => 1
  | .Attract => 2
  | .LongIntroduction => 3
  | .HowHigh => 4
  | .GamePlay => 5
  | .PlayerDies => 6
  | .PlayerWins => 7
  | .KongRetreats => 8

/-- Identities of the callback functions stored in `STATE_HANDLERS`:
`state_nop` plus the three lifecycle callbacks of each non-sentinel
state (for example `Callback.enterCb GameState.Boot` is `boot_enter`). -/
inductive Callback where
  | state_nop
  | enterCb (s : GameState)
  | updateCb (s : GameState)
  | leaveCb (s : GameState)
deriving DecidableEq, Repr

/-- The `enter` field of the registry entry of `s` (entry 0 stores
`state_nop` in all three slots). -/
def enterOf : GameState → Callback
  | .None => .state_nop
  | s => .enterCb s

/-- The `update` field of the registry entry of `s`. -/
def updateOf : GameState → Callback
  | .None => .state_nop
  | s => .updateCb s

/-- The `leave` field of the registry entry of `s`. -/
def leaveOf : GameState → Callback
  | .None => .state_nop
  | s => .leaveCb s

/-- One entry of the `STATE_HANDLERS` vector: the three immutable
callback slots plus the mutable `first_update: RefCell<bool>` cell. -/
structure StateHandlers where
  enter : Callback
  update : Callback
  leave : Callback
  first_update : Bool
deriving DecidableEq, Repr

/-- The registry entry the source constructs for state `s`, with
first-update flag `flag`. -/
def handlersFor (s : GameState) (flag : Bool) : StateHandlers :=
  ⟨enterOf s, updateOf s, leaveOf s, flag⟩

/-- The `STATE_HANDLERS` vector with the first-update flag of each state
`s` equal to `f s`: one entry per `GameState` value, at index
`GameState.ordinal`. -/
def mkStateHandlers (f : GameState → Bool) : List StateHandlers :=
  [handlersFor .None (f .None),
   handlersFor .Boot (f .Boot),
   handlersFor .Attract (f .Attract),
   handlersFor .LongIntroduction (f .LongIntroduction),
   handlersFor .HowHigh (f .HowHigh),
   handlersFor .GamePlay (f .GamePlay),
   handlersFor .PlayerDies (f .PlayerDies),
   handlersFor .PlayerWins (f .PlayerWins),
   handlersFor .KongRetreats (f .KongRetreats)]

/-- The `STATE_HANDLERS` vector as the `lazy_static!` block builds it:
every `first_update` cell starts `true`. -/
def STATE_HANDLERS : List StateHandlers := mkStateHandlers (fun _ => true)

/-- The thread-local `States` record. -/
structure States where
  previous : GameState
  current : GameState
  next : GameState
deriving DecidableEq, Repr

/-- The whole mutable state the scheduler touches: the `States` record
plus the handler vector (only its `first_update` cells ever change). -/
structure Machine where
  state : States
  handlers : List StateHandlers
deriving DecidableEq, Repr

/-- The process-start state: `previous = current = next = None` and the
freshly built `STATE_HANDLERS` vector (all flags `true`). -/
def initMachine : Machine :=
  ⟨⟨.None, .None, .None⟩, STATE_HANDLERS⟩

def get_previous_state (m : Machine) : GameState := m.state.previous

def set_previous_state (m : Machine) (s : GameState) : Machine :=
  { m with state := { m.state with previous := s } }

def get_next_state (m : Machine) : GameState := m.state.next

def set_next_state (m : Machine) (s : GameState) : Machine :=
  { m with state := { m.state with next := s } }

def get_current_state (m : Machine) : GameState := m.state.current

def set_current_state (m : Machine) (s : GameState) : Machine :=
  { m with state := { m.state with current := s } }

/-- The function `game_state_go`: write the requested target into `next`. -/
def game_state_go (m : Machine) (s : GameState) : Machine :=
  set_next_state m s

/-- The function `game_state_init`: request a transition into `Boot`. -/
def game_state_init (m : Machine) : Machine :=
  game_state_go m .Boot

/-- The function `get_state_handlers`: index the vector at `state as usize`.
`Option.none` models the out-of-bounds panic of `Vec` indexing. -/
def get_state_handlers (m : Machine) (s : GameState) : Option StateHandlers :=
  m.handlers.get? s.ordinal

/-- The behaviour of the external callbacks during one tick: for each
callback identity, `some t` means that, when invoked, its net
scheduler-visible effect is `game_state_go(t)`; `Option.none` means it
requests nothing. -/
abbrev Env := Callback → Option GameState

/-- The environment in which no invoked callback requests a transition. -/
def quietEnv : Env := fun _ => Option.none

/-- Invoke callback `c` under environment `env`: the machine is updated
by the callback's `game_state_go` request, if it makes one. -/
def runCallback (env : Env) (c : Callback) (m : Machine) : Machine :=
  match env c with
  | some t => game_state_go m t
  | Option.none => m

/-- The scheduler tick `game_state_update`, line for line:

* if `next != None`: set `previous := current`; fetch the handler entry
  of `previous`; invoke its `leave`; set that entry's `first_update`
  cell to `true`; set `current := next` (re-reading `next` only now,
  after `leave` ran); set `next := None`; fetch the entry of the new
  `current` and invoke its `enter`;
* else: fetch the entry of `current`; if its `first_update` cell is
  `true` set it to `false`; invoke its `update`.

Returns the updated machine and the callbacks invoked, in order;
`Option.none` is an out-of-bounds vector panic. -/
def game_state_update (env : Env) (m : Machine) :
    Option (Machine × List Callback) :=
  if get_next_state m ≠ GameState.None then
    let m1 := set_previous_state m (get_current_state m)
    match get_state_handlers m1 (get_previous_state m1) with
    | Option.none => Option.none
    | some previous_handlers =>
      let m2 := runCallback env previous_handlers.leave m1
      let m3 := { m2 with
        handlers := m2.handlers.set (get_previous_state m2).ordinal
          { previous_handlers with first_update := true } }
      let m4 := set_current_state m3 (get_next_state m3)
      let m5 := set_next_state m4 GameState.None
      match get_state_handlers m5 (get_current_state m5) with
      | Option.none => Option.none
      | some current_handlers =>
        let m6 := runCallback env current_handlers.enter m5
        some (m6, [previous_handlers.leave, current_handlers.enter])
  else
    match get_state_handlers m (get_current_state m) with
    | Option.none => Option.none
    | some handlers =>
      let m1 :=
        if handlers.first_update then
          { m with
            handlers := m.handlers.set (get_current_state m).ordinal
              { handlers with first_update := false } }
        else m
      let m2 := runCallback env handlers.update m1
      some (m2, [handlers.update])

/-- The state a transition tick ends up entering: the target requested
by the `leave` callback if it made a request (the tick re-reads `next`
only after `leave` returned), otherwise the target that was pending
when the tick began. -/
def leaveResult (env : Env) (cur pending : GameState) : GameState :=
  (env (leaveOf cur)).getD pending

/-- Run a sequence of ticks, one environment per tick, collecting the
invoked callbacks of all ticks in order. -/
def runTicks (envs : List Env) (m : Machine) :
    Option (Machine × List Callback) :=
  match envs with
  | [] => some (m, [])
  | e :: rest =>
    match game_state_update e m with
    | Option.none => Option.none
    | some (m', tr) =>
      match runTicks rest m' with
      | Option.none => Option.none
      | some (m'', trs) => some (m'', tr ++ trs)

/-- The `first_update` cell of state `s` (defaulting to `true` if the
vector were too short, which never happens for reachable machines). -/
def first_update_of (m : Machine) (s : GameState) : Bool :=
  match m.handlers.get? s.ordinal with
  | some h => h.first_update
  | Option.none => true

/-- The handler vector is structurally the registry the source builds:
some flag assignment, with the callback slots in their fixed places. -/
def SchedInv (m : Machine) : Prop :=
  ∃ f : GameState → Bool,
    m.handlers = mkStateHandlers f ∧
    ∀ s, s ≠ m.state.current → f s = true

/-- The machines reachable from process start by any interleaving of
`game_state_go`, `game_state_init` and non-panicking `game_state_update`
ticks (with callbacks that interact with the scheduler only through
`game_state_go`, as modelled by `Env`). -/
inductive Reachable : Machine → Prop where
  | init : Reachable initMachine
  | go (m : Machine) (s : GameState) :
      Reachable m → Reachable (game_state_go m s)
  | start (m : Machine) :
      Reachable m → Reachable (game_state_init m)
  | tick (m m' : Machine) (env : Env) (tr : List Callback) :
      Reachable m → game_state_update env m = some (m', tr) → Reachable m'

/-- The machine after any positive number of quiet ticks from process
start: still resident in the sentinel state, with only the sentinel's
first-update flag spent. -/
def mQuiet : Machine :=
  ⟨⟨.None, .None, .None⟩,
   mkStateHandlers (fun s => match s with | .None => false | _ => true)⟩

/-- A machine with `Boot` current and a pending transition to
`Attract`, used to instantiate the claims about the transition path. -/
def c1Machine : Machine := ⟨⟨.None, .Boot, .Attract⟩, STATE_HANDLERS⟩

/-- An environment where the `leave` callback of `Boot` requests a
transition to `GamePlay`. -/
def c1Env : Env := fun c =>
  match c with
  | .leaveCb .Boot => some .GamePlay
  | _ => Option.none

/-- A machine resident in `Boot` with nothing pending. -/
def c2Machine : Machine := ⟨⟨.None, .Boot, .None⟩, STATE_HANDLERS⟩

/-- An environment where the `update` callback of `Boot` requests a
transition to `Attract`. -/
def c2Env : Env := fun c =>
  match c with
  | .updateCb .Boot => some .Attract
  | _ => Option.none

/-- A machine with `Boot` current and a pending transition to
`Attract`, instance data for the first-update-flag claim. -/
def c3Machine : Machine := ⟨⟨.None, .Boot, .Attract⟩, STATE_HANDLERS⟩

/-- An environment where the `update` callback of `Boot` requests a
transition to `Attract`; used in the boot scenario. -/
def c4EnvReq : Env := fun c =>
  match c with
  | .updateCb .Boot => some .Attract
  | _ => Option.none

/-- One tick applied to the result of the previous one, keeping only
the current tick's invocation list. -/
def c4Tick (e : Env) (r : Option (Machine × List Callback)) :
    Option (Machine × List Callback) :=
  r.bind (fun p => game_state_update e p.1)

/-- Boot scenario, step 0: `initialize()` has queued `Boot`. -/
def c4s0 : Option (Machine × List Callback) :=
  some (game_state_init initMachine, [])

/-- Boot scenario after the first tick (the transition into `Boot`). -/
def c4s1 : Option (Machine × List Callback) := c4Tick quietEnv c4s0

/-- Boot scenario after the first steady tick. -/
def c4s2 : Option (Machine × List Callback) := c4Tick quietEnv c4s1

/-- Boot scenario after the second steady tick. -/
def c4s3 : Option (Machine × List Callback) := c4Tick quietEnv c4s2

/-- Boot scenario after the third steady tick. -/
def c4s4 : Option (Machine × List Callback) := c4Tick quietEnv c4s3

/-- Boot scenario after the steady tick in which the `update` callback
of `Boot` requests `Attract`. -/
def c4s5 : Option (Machine × List Callback) := c4Tick c4EnvReq c4s4

/-- Boot scenario after the tick that applies the requested transition
into `Attract`. -/
def c4s6 : Option (Machine × List Callback) := c4Tick quietEnv c4s5

/-- The machine after the transition sequence into `A`, one steady tick
in `A`, then `A` to `B`, then `B` back to `A`, all driven from process
start with callbacks that request nothing. -/
def c6Run (A B : GameState) : Option Machine :=
  (game_state_update quietEnv (game_state_go initMachine A)).bind fun p1 =>
  (game_state_update quietEnv p1.1).bind fun p2 =>
  (game_state_update quietEnv (game_state_go p2.1 B)).bind fun p3 =>
  (game_state_update quietEnv (game_state_go p3.1 A)).bind fun p4 =>
  some p4.1

/-- A machine with `Boot` current and a pending transition to
`Attract`, instance data for the cancellation claim. -/
def c10Machine : Machine := ⟨⟨.None, .Boot, .Attract⟩, STATE_HANDLERS⟩

theorem mkStateHandlers_get (f : GameState → Bool) (s : GameState) :
    (mkStateHandlers f).get? s.ordinal = some (handlersFor s (f s)) := by
  cases s <;> rfl

theorem mkStateHandlers_set (f : GameState → Bool) (s : GameState) (b : Bool) :
    (mkStateHandlers f).set s.ordinal (handlersFor s b) =
      mkStateHandlers (fun t => if t = s then b else f t) := by
  cases s <;> simp [mkStateHandlers, GameState.ordinal, List.set]

theorem mkStateHandlers_congr {f g : GameState → Bool} (h : ∀ s, f s = g s) :
    mkStateHandlers f = mkStateHandlers g := by
  simp only [mkStateHandlers, h]

theorem runCallback_handlers (env : Env) (c : Callback) (m : Machine) :
    (runCallback env c m).handlers = m.handlers := by
  unfold runCallback
  cases env c <;> rfl

theorem runCallback_previous (env : Env) (c : Callback) (m : Machine) :
    (runCallback env c m).state.previous = m.state.previous := by
  unfold runCallback
  cases env c <;> rfl

theorem runCallback_current (env : Env) (c : Callback) (m : Machine) :
    (runCallback env c m).state.current = m.state.current := by
  unfold runCallback
  cases env c <;> rfl

theorem runCallback_next (env : Env) (c : Callback) (m : Machine) :
    (runCallback env c m).state.next = (env c).getD m.state.next := by
  unfold runCallback
  cases env c <;> rfl

theorem mkStateHandlers_getElem (f : GameState → Bool) (s : GameState) :
    (mkStateHandlers f)[s.ordinal]? =
      some (StateHandlers.mk (enterOf s) (updateOf s) (leaveOf s) (f s)) := by
  cases s <;> rfl

theorem mkStateHandlers_setElem (f : GameState → Bool) (s : GameState) (b : Bool) :
    (mkStateHandlers f).set s.ordinal
        (StateHandlers.mk (enterOf s) (updateOf s) (leaveOf s) b) =
      mkStateHandlers (fun t => if t = s then b else f t) := by
  cases s <;> simp [mkStateHandlers, handlersFor, GameState.ordinal, List.set]

/-- Characterization of the steady-state path of the tick: with no
pending transition, the tick invokes exactly the current state's
`update` callback, clears the current state's first-update flag (a
no-op when it is already `false`), and leaves `previous`, `current`
and the other flags untouched; `next` becomes whatever the `update`
callback requested (or `None` if it requested nothing). -/
theorem game_state_update_steady (f : GameState → Bool) (env : Env)
    (m : Machine) (hh : m.handlers = mkStateHandlers f)
    (hn : m.state.next = GameState.None) :
    game_state_update env m =
      some
        (runCallback env (updateOf m.state.current)
          { m with handlers :=
              (mkStateHandlers
                (fun t => if t = m.state.current then false else f t)) },
         [updateOf m.state.current]) := by
  obtain ⟨⟨p, c, n⟩, hs⟩ := m
  simp only at hh hn
  subst hh hn
  cases hf : f c <;> cases c <;>
    simp [game_state_update, get_next_state, get_current_state,
      get_previous_state, set_previous_state, set_current_state,
      set_next_state, get_state_handlers, mkStateHandlers, handlersFor,
      enterOf, updateOf, leaveOf, GameState.ordinal, List.set, hf]

/-- Characterization of the transition path of the tick: with a pending
target, the tick sets `previous` to the old current state, invokes the
old current state's `leave` callback, resets the old current state's
first-update flag to `true`, then re-reads `next` (so a request made by
`leave` replaces the pending target), makes that state current, clears
`next`, and invokes the entered state's `enter` callback (whose own
request, if any, is left queued in `next`). -/
theorem game_state_update_transition (f : GameState → Bool) (env : Env)
    (m : Machine) (hh : m.handlers = mkStateHandlers f)
    (hn : m.state.next ≠ GameState.None) :
    game_state_update env m =
      some
        (runCallback env (enterOf (leaveResult env m.state.current m.state.next))
          ⟨⟨m.state.current, leaveResult env m.state.current m.state.next,
            GameState.None⟩,
           (mkStateHandlers
             (fun t => if t = m.state.current then true else f t))⟩,
         [leaveOf m.state.current,
          enterOf (leaveResult env m.state.current m.state.next)]) := by
  obtain ⟨⟨p, c, n⟩, hs⟩ := m
  simp only at hh hn
  subst hh
  simp [game_state_update, get_next_state, get_current_state,
    get_previous_state, set_previous_state, set_current_state,
    set_next_state, get_state_handlers, hn, mkStateHandlers_getElem,
    mkStateHandlers_setElem, runCallback_handlers, runCallback_previous,
    runCallback_current, runCallback_next, leaveResult]

theorem first_update_of_eq (m : Machine) (f : GameState → Bool)
    (s : GameState) (hh : m.handlers = mkStateHandlers f) :
    first_update_of m s = f s := by
  simp [first_update_of, hh, mkStateHandlers_getElem]

theorem ordinal_lt_length (s : GameState) :
    s.ordinal < STATE_HANDLERS.length := by
  cases s <;> decide

theorem get?_of_length (l : List StateHandlers) (s : GameState)
    (hl : l.length = STATE_HANDLERS.length) :
    ∃ h, l.get? s.ordinal = some h := by
  have hlt : s.ordinal < l.length := by
    rw [hl]; exact ordinal_lt_length s
  cases hq : l.get? s.ordinal with
  | none =>
    have := List.get?_eq_none.mp hq
    omega
  | some h => exact ⟨h, rfl⟩

theorem quiet_tick_init :
    game_state_update quietEnv initMachine =
      some (mQuiet, [Callback.state_nop]) := by
  decide

theorem quiet_tick_fix :
    game_state_update quietEnv mQuiet =
      some (mQuiet, [Callback.state_nop]) := by
  decide

theorem runTicks_quiet_fix (n : Nat) :
    runTicks (List.replicate n quietEnv) mQuiet =
      some (mQuiet, List.replicate n Callback.state_nop) := by
  induction n with
  | zero => rfl
  | succ k ih =>
    simp [List.replicate_succ, runTicks, quiet_tick_fix, ih]

theorem reachable_schedInv (m : Machine) (h : Reachable m) : SchedInv m := by
  induction h with
  | init =>
    exact ⟨fun _ => true, rfl, fun _ _ => rfl⟩
  | go m s hm ih =>
    obtain ⟨f, hf, hflag⟩ := ih
    exact ⟨f, hf, hflag⟩
  | start m hm ih =>
    obtain ⟨f, hf, hflag⟩ := ih
    exact ⟨f, hf, hflag⟩
  | tick m m' env tr hm heq ih =>
    obtain ⟨f, hf, hflag⟩ := ih
    by_cases hn : m.state.next = GameState.None
    · rw [game_state_update_steady f env m hf hn] at heq
      obtain ⟨hm', _⟩ := Prod.mk.injEq .. ▸ Option.some.injEq .. ▸ heq
      refine ⟨fun t => if t = m.state.current then false else f t, ?_, ?_⟩
      · rw [← hm', runCallback_handlers]
      · intro s hs
        have hcur : m'.state.current = m.state.current := by
          rw [← hm', runCallback_current]
        rw [hcur] at hs
        simp only [if_neg hs]
        exact hflag s hs
    · rw [game_state_update_transition f env m hf hn] at heq
      obtain ⟨hm', _⟩ := Prod.mk.injEq .. ▸ Option.some.injEq .. ▸ heq
      refine ⟨fun t => if t = m.state.current then true else f t, ?_, ?_⟩
      · rw [← hm', runCallback_handlers]
      · intro s hs
        by_cases hsc : s = m.state.current
        · simp [hsc]
        · simp only [if_neg hsc]
          exact hflag s hsc

/-- C7: for every scheduler state and target, game_state_go writes the
target into the next slot, overwriting whatever was pending, and leaves
previous, current and every first-update flag unchanged.  It invokes no
callback: in the embedding it is a pure state write that produces no
invocation (only game_state_update produces invocation lists). -/
theorem C7_go_frame (m : Machine) (t : GameState) :
    (game_state_go m t).state.next = t ∧
    (game_state_go m t).state.previous = m.state.previous ∧
    (game_state_go m t).state.current = m.state.current ∧
    (game_state_go m t).handlers = m.handlers ∧
    ∀ s, first_update_of (game_state_go m t) s = first_update_of m s :=
  ⟨rfl, rfl, rfl, rfl, fun _ => rfl⟩

/-- C8: every GameState ordinal is within the bounds of the
STATE_HANDLERS table; the table holds exactly one entry per enumeration
value, indexed by its ordinal; lookup succeeds on every reachable
machine for every state; and game_state_update never panics on a
reachable machine (game_state_go and game_state_init are total Lean
functions by construction). -/
theorem C8_registry_bounds_total :
    (∀ s : GameState, s.ordinal < STATE_HANDLERS.length) ∧
    (∀ (f : GameState → Bool) (s : GameState),
      (mkStateHandlers f).get? s.ordinal = some (handlersFor s (f s))) ∧
    (∀ (m : Machine) (s : GameState), Reachable m →
      ∃ h, get_state_handlers m s = some h) ∧
    (∀ (env : Env) (m : Machine), Reachable m →
      ∃ r, game_state_update env m = some r) := by
  refine ⟨ordinal_lt_length, mkStateHandlers_get, ?_, ?_⟩
  · intro m s hm
    obtain ⟨f, hf, _⟩ := reachable_schedInv m hm
    exact ⟨handlersFor s (f s), by
      simp [get_state_handlers, hf, mkStateHandlers_getElem, handlersFor]⟩
  · intro env m hm
    obtain ⟨f, hf, _⟩ := reachable_schedInv m hm
    by_cases hn : m.state.next = GameState.None
    · rw [game_state_update_steady f env m hf hn]
      exact ⟨_, rfl⟩
    · rw [game_state_update_transition f env m hf hn]
      exact ⟨_, rfl⟩

/-- C8 witness: lookup and tick succeed at the initial machine. -/
theorem C8_registry_bounds_total_witness :
    (∃ h, get_state_handlers initMachine GameState.Boot = some h) ∧
    (∃ r, game_state_update quietEnv initMachine = some r) :=
  ⟨C8_registry_bounds_total.2.2.1 initMachine GameState.Boot Reachable.init,
   C8_registry_bounds_total.2.2.2 quietEnv initMachine Reachable.init⟩

/-- C5: any number of ticks from process start, before initialize and
before any transition request, succeeds (no panic, no out-of-bounds
registry access) and only ever invokes the sentinel's no-op handler:
every invoked callback is state_nop, so no non-sentinel enter, update
or leave callback runs. -/
theorem C5_sentinel_safety (n : Nat) :
    ∃ p : Machine × List Callback,
      runTicks (List.replicate n quietEnv) initMachine = some p ∧
      ∀ c ∈ p.2, c = Callback.state_nop := by
  cases n with
  | zero => exact ⟨(initMachine, []), rfl, by simp⟩
  | succ k =>
    refine ⟨(mQuiet, Callback.state_nop :: List.replicate k Callback.state_nop),
      ?_, ?_⟩
    · simp [List.replicate_succ, runTicks, quiet_tick_init,
        runTicks_quiet_fix k]
    · intro c hc
      rcases List.mem_cons.mp hc with h | h
      · exact h
      · exact List.eq_of_mem_replicate h

/-- C9: in every machine reachable from process start by any sequence
of game_state_go, game_state_init and game_state_update calls (with
callbacks whose only scheduler interaction is game_state_go), every
state other than the current one has its first-update flag true: at
most one flag, the current state's, can be false, because the
transition path of game_state_update resets the outgoing state's flag
to true. -/
theorem C9_flag_invariant (m : Machine) (h : Reachable m) :
    ∀ s : GameState, s ≠ m.state.current → first_update_of m s = true := by
  obtain ⟨f, hf, hflag⟩ := reachable_schedInv m h
  intro s hs
  rw [first_update_of_eq m f s hf]
  exact hflag s hs

/-- C9 witness: at process start the Boot flag (Boot is not current)
is true. -/
theorem C9_flag_invariant_witness :
    first_update_of initMachine GameState.Boot = true :=
  C9_flag_invariant initMachine Reachable.init GameState.Boot (by decide)

/-- C1 counterexample: with a pending transition to Attract, a
request_transition(GamePlay) made during Boot's leave callback is not
queued for later: the very same tick sets current to GamePlay (not to
the pending target Attract), invokes GamePlay's enter callback, and
ends with nothing queued in next.  The tick re-reads next after the
leave callback returned, so the leave-time request replaces the
pending target within the same advance call. -/
theorem C1_counterexample :
    (game_state_update c1Env c1Machine).map
        (fun p => (p.1.state.previous, p.1.state.current, p.1.state.next, p.2)) =
      some (GameState.Boot, GameState.GamePlay, GameState.None,
        [Callback.leaveCb GameState.Boot, Callback.enterCb GameState.GamePlay]) ∧
    (game_state_update c1Env c1Machine).map (fun p => p.1.state.current) ≠
      some GameState.Attract ∧
    (game_state_update c1Env c1Machine).map (fun p => p.1.state.next) ≠
      some GameState.GamePlay := by
  decide

/-- C1 (amended): if an advance call begins with a pending target and
the outgoing state's leave callback requests X, that same advance call
applies X instead of the original target: current becomes X, X's enter
callback is invoked, and next ends the tick holding only what the enter
callback requested (nothing is queued on behalf of the leave-time
request).  A request made during enter, by contrast, is left queued in
next for a subsequent advance call. -/
theorem C1_leave_request_redirects (f : GameState → Bool) (env : Env)
    (m : Machine) (X : GameState)
    (hh : m.handlers = mkStateHandlers f)
    (hn : m.state.next ≠ GameState.None)
    (hleave : env (leaveOf m.state.current) = some X) :
    ∃ m', game_state_update env m =
        some (m', [leaveOf m.state.current, enterOf X]) ∧
      m'.state.current = X ∧
      m'.state.previous = m.state.current ∧
      m'.state.next = (env (enterOf X)).getD GameState.None := by
  have h := game_state_update_transition f env m hh hn
  have htgt : leaveResult env m.state.current m.state.next = X := by
    simp [leaveResult, hleave]
  rw [htgt] at h
  refine ⟨_, h, ?_, ?_, ?_⟩
  · rw [runCallback_current]
  · rw [runCallback_previous]
  · rw [runCallback_next]

/-- C1 witness: the amended statement at the concrete counterexample
instance. -/
theorem C1_leave_request_redirects_witness :
    ∃ m', game_state_update c1Env c1Machine =
        some (m', [leaveOf GameState.Boot, enterOf GameState.GamePlay]) ∧
      m'.state.current = GameState.GamePlay ∧
      m'.state.previous = GameState.Boot ∧
      m'.state.next = (c1Env (enterOf GameState.GamePlay)).getD GameState.None :=
  C1_leave_request_redirects (fun _ => true) c1Env c1Machine GameState.GamePlay
    rfl (by decide) rfl

/-- C10: requesting the sentinel state cancels a pending transition:
for any machine with a pending target, calling game_state_go(None)
before the next tick makes that tick take the steady-state path,
invoking only the current state's update callback (no leave, no
enter), with previous and current unchanged. -/
theorem C10_go_none_cancels (f : GameState → Bool) (env : Env)
    (m : Machine)
    (hh : m.handlers = mkStateHandlers f)
    (hpend : m.state.next ≠ GameState.None) :
    ∃ m', game_state_update env (game_state_go m GameState.None) =
        some (m', [updateOf m.state.current]) ∧
      m'.state.previous = m.state.previous ∧
      m'.state.current = m.state.current := by
  have h := game_state_update_steady f env (game_state_go m GameState.None)
    hh rfl
  refine ⟨_, h, ?_, ?_⟩
  · rw [runCallback_previous]
    rfl
  · rw [runCallback_current]
    rfl

/-- C10 witness: cancelling the pending Boot-to-Attract transition. -/
theorem C10_go_none_cancels_witness :
    ∃ m', game_state_update quietEnv (game_state_go c10Machine GameState.None) =
        some (m', [updateOf GameState.Boot]) ∧
      m'.state.previous = GameState.None ∧
      m'.state.current = GameState.Boot :=
  C10_go_none_cancels (fun _ => true) quietEnv c10Machine rfl (by decide)

/-- C2: (first part) if, in a tick with nothing pending, the current
state's update callback requests X (the only request made in the
two-tick window), then that tick runs only the update callback — no
leave, no enter — and leaves current unchanged with X queued; the
leave of the old current state and the enter of X run on exactly the
next tick.  (second part) every tick on a well-formed machine invokes
either exactly one update callback (steady path) or exactly one leave
followed by one enter (transition path), never both. -/
theorem C2_deferred_and_exclusive :
    (∀ (f : GameState → Bool) (env1 env2 : Env) (m : Machine) (X : GameState),
      m.handlers = mkStateHandlers f →
      m.state.next = GameState.None →
      env1 (updateOf m.state.current) = some X →
      X ≠ GameState.None →
      env2 (leaveOf m.state.current) = Option.none →
      ∃ m1 m2 : Machine,
        game_state_update env1 m = some (m1, [updateOf m.state.current]) ∧
        m1.state.current = m.state.current ∧
        m1.state.previous = m.state.previous ∧
        m1.state.next = X ∧
        game_state_update env2 m1 =
          some (m2, [leaveOf m.state.current, enterOf X]) ∧
        m2.state.previous = m.state.current ∧
        m2.state.current = X) ∧
    (∀ (f : GameState → Bool) (env : Env) (m : Machine),
      m.handlers = mkStateHandlers f →
      ∃ p : Machine × List Callback,
        game_state_update env m = some p ∧
        (p.2 = [updateOf m.state.current] ∨
         ∃ t, p.2 = [leaveOf m.state.current, enterOf t])) := by
  constructor
  · intro f env1 env2 m X hh hn hreq hX hq
    have h1 := game_state_update_steady f env1 m hh hn
    obtain ⟨m1, hm1eq, hm1c, hm1p, hm1n, hm1h⟩ :
        ∃ m1, game_state_update env1 m = some (m1, [updateOf m.state.current]) ∧
          m1.state.current = m.state.current ∧
          m1.state.previous = m.state.previous ∧
          m1.state.next = X ∧
          m1.handlers = mkStateHandlers
            (fun t => if t = m.state.current then false else f t) := by
      refine ⟨_, h1, ?_, ?_, ?_, ?_⟩
      · rw [runCallback_current]
      · rw [runCallback_previous]
      · rw [runCallback_next]
        simp [hreq]
      · rw [runCallback_handlers]
    have h2 := game_state_update_transition
      (fun t => if t = m.state.current then false else f t) env2 m1 hm1h
      (by rw [hm1n]; exact hX)
    have htgt : leaveResult env2 m1.state.current m1.state.next = X := by
      rw [hm1c, hm1n]
      simp [leaveResult, hq]
    rw [htgt, hm1c] at h2
    refine ⟨m1, _, hm1eq, hm1c, hm1p, hm1n, h2, ?_, ?_⟩
    · rw [runCallback_previous]
    · rw [runCallback_current]
  · intro f env m hh
    by_cases hn : m.state.next = GameState.None
    · rw [game_state_update_steady f env m hh hn]
      exact ⟨_, rfl, Or.inl rfl⟩
    · rw [game_state_update_transition f env m hh hn]
      exact ⟨_, rfl, Or.inr ⟨_, rfl⟩⟩

/-- C2 witness: both parts at a concrete instance — Boot requests
Attract during its update, and the transition runs on the next tick. -/
theorem C2_deferred_and_exclusive_witness :
    (∃ m1 m2 : Machine,
      game_state_update c2Env c2Machine =
        some (m1, [updateOf GameState.Boot]) ∧
      m1.state.current = GameState.Boot ∧
      m1.state.previous = GameState.None ∧
      m1.state.next = GameState.Attract ∧
      game_state_update quietEnv m1 =
        some (m2, [leaveOf GameState.Boot, enterOf GameState.Attract]) ∧
      m2.state.previous = GameState.Boot ∧
      m2.state.current = GameState.Attract) ∧
    (∃ p : Machine × List Callback,
      game_state_update quietEnv c2Machine = some p ∧
      (p.2 = [updateOf GameState.Boot] ∨
       ∃ t, p.2 = [leaveOf GameState.Boot, enterOf t])) :=
  ⟨C2_deferred_and_exclusive.1 (fun _ => true) c2Env quietEnv c2Machine
      GameState.Attract rfl rfl rfl (by decide) rfl,
   C2_deferred_and_exclusive.2 (fun _ => true) quietEnv c2Machine rfl⟩

/-- C3: after a transition into the pending state S (with no request
made by the leave or enter callbacks of that tick), S's first-update
flag reads true; the first steady tick invokes S's update callback and
flips the flag to false; a further steady tick again invokes the
update callback (the callback runs regardless of the flag) and leaves
the flag false.  The hypothesis on the flags of the starting machine
is the reachable-state invariant (every non-current flag true). -/
theorem C3_first_update_flag (f : GameState → Bool) (env1 env2 env3 : Env)
    (m : Machine)
    (hh : m.handlers = mkStateHandlers f)
    (hflag : ∀ s, s ≠ m.state.current → f s = true)
    (hn : m.state.next ≠ GameState.None)
    (hl : env1 (leaveOf m.state.current) = Option.none)
    (he : env1 (enterOf m.state.next) = Option.none)
    (hu : env2 (updateOf m.state.next) = Option.none) :
    ∃ m1 m2 m3 : Machine,
      game_state_update env1 m =
        some (m1, [leaveOf m.state.current, enterOf m.state.next]) ∧
      m1.state.current = m.state.next ∧
      m1.state.next = GameState.None ∧
      first_update_of m1 m.state.next = true ∧
      game_state_update env2 m1 = some (m2, [updateOf m.state.next]) ∧
      m2.state.current = m.state.next ∧
      m2.state.next = GameState.None ∧
      first_update_of m2 m.state.next = false ∧
      game_state_update env3 m2 = some (m3, [updateOf m.state.next]) ∧
      m3.state.current = m.state.next ∧
      first_update_of m3 m.state.next = false := by
  have h1 := game_state_update_transition f env1 m hh hn
  have htgt : leaveResult env1 m.state.current m.state.next = m.state.next := by
    simp [leaveResult, hl]
  rw [htgt] at h1
  obtain ⟨m1, hm1eq, hm1c, hm1n, hm1h, hm1f⟩ :
      ∃ m1, game_state_update env1 m =
          some (m1, [leaveOf m.state.current, enterOf m.state.next]) ∧
        m1.state.current = m.state.next ∧
        m1.state.next = GameState.None ∧
        m1.handlers = mkStateHandlers
          (fun t => if t = m.state.current then true else f t) ∧
        first_update_of m1 m.state.next = true := by
    refine ⟨_, h1, ?_, ?_, ?_, ?_⟩
    · rw [runCallback_current]
    · rw [runCallback_next]
      simp [he]
    · rw [runCallback_handlers]
    · rw [first_update_of_eq _ (fun t => if t = m.state.current then true else f t)
        _ (by rw [runCallback_handlers])]
      by_cases hsc : m.state.next = m.state.current
      · simp [hsc]
      · simp only [if_neg hsc]
        exact hflag _ hsc
  have h2 := game_state_update_steady _ env2 m1 hm1h hm1n
  rw [hm1c] at h2
  obtain ⟨m2, hm2eq, hm2c, hm2n, hm2h, hm2f⟩ :
      ∃ m2, game_state_update env2 m1 = some (m2, [updateOf m.state.next]) ∧
        m2.state.current = m.state.next ∧
        m2.state.next = GameState.None ∧
        m2.handlers = mkStateHandlers
          (fun t => if t = m.state.next then false
            else if t = m.state.current then true else f t) ∧
        first_update_of m2 m.state.next = false := by
    refine ⟨_, h2, ?_, ?_, ?_, ?_⟩
    · rw [runCallback_current]
      exact hm1c
    · rw [runCallback_next]
      simp only [hu, Option.getD_none]
      exact hm1n
    · rw [runCallback_handlers]
    · rw [first_update_of_eq _ (fun t => if t = m.state.next then false
          else if t = m.state.current then true else f t)
        _ (by rw [runCallback_handlers])]
      simp
  have h3 := game_state_update_steady _ env3 m2 hm2h hm2n
  rw [hm2c] at h3
  refine ⟨m1, m2, _, hm1eq, hm1c, hm1n, hm1f, hm2eq, hm2c, hm2n, hm2f, h3,
    ?_, ?_⟩
  · rw [runCallback_current]
    exact hm2c
  · rw [first_update_of_eq _ (fun t => if t = m.state.next then false
        else if t = m.state.next then false
        else if t = m.state.current then true else f t)
      _ (by rw [runCallback_handlers])]
    simp

/-- C3 witness: the flag scenario for the transition Boot to Attract
from the all-flags-true registry, with quiet callbacks. -/
theorem C3_first_update_flag_witness :
    ∃ m1 m2 m3 : Machine,
      game_state_update quietEnv c3Machine =
        some (m1, [leaveOf GameState.Boot, enterOf GameState.Attract]) ∧
      m1.state.current = GameState.Attract ∧
      m1.state.next = GameState.None ∧
      first_update_of m1 GameState.Attract = true ∧
      game_state_update quietEnv m1 = some (m2, [updateOf GameState.Attract]) ∧
      m2.state.current = GameState.Attract ∧
      m2.state.next = GameState.None ∧
      first_update_of m2 GameState.Attract = false ∧
      game_state_update quietEnv m2 = some (m3, [updateOf GameState.Attract]) ∧
      m3.state.current = GameState.Attract ∧
      first_update_of m3 GameState.Attract = false :=
  C3_first_update_flag (fun _ => true) quietEnv quietEnv quietEnv c3Machine
    rfl (fun _ _ => rfl) (by decide) rfl rfl rfl

/-- C4: the boot scenario.  After initialize, the first tick performs
the transition into Boot (the sentinel's no-op leave runs, then Boot's
enter) and ends with previous None, current Boot, nothing pending;
three steady ticks each invoke Boot's update callback, with Boot's
first-update flag observed true before the first of them and false
before each of the other two; a steady tick in which Boot's update
requests Attract still only runs the update callback and queues the
request; the following tick runs Boot's leave then Attract's enter and
ends with previous Boot, current Attract, next None. -/
theorem C4_boot_scenario :
    c4s1.map (fun p =>
        (p.1.state.previous, p.1.state.current, p.1.state.next, p.2)) =
      some (GameState.None, GameState.Boot, GameState.None,
        [Callback.state_nop, Callback.enterCb GameState.Boot]) ∧
    c4s1.map (fun p => first_update_of p.1 GameState.Boot) = some true ∧
    c4s2.map (fun p => (p.2, first_update_of p.1 GameState.Boot)) =
      some ([Callback.updateCb GameState.Boot], false) ∧
    c4s3.map (fun p => (p.2, first_update_of p.1 GameState.Boot)) =
      some ([Callback.updateCb GameState.Boot], false) ∧
    c4s4.map (fun p => (p.2, first_update_of p.1 GameState.Boot)) =
      some ([Callback.updateCb GameState.Boot], false) ∧
    c4s5.map (fun p => (p.2, p.1.state.next)) =
      some ([Callback.updateCb GameState.Boot], GameState.Attract) ∧
    c4s6.map (fun p =>
        (p.1.state.previous, p.1.state.current, p.1.state.next, p.2)) =
      some (GameState.Boot, GameState.Attract, GameState.None,
        [Callback.leaveCb GameState.Boot, Callback.enterCb GameState.Attract]) := by
  decide

/-- C6: for every pair of non-sentinel states A and B, after entering
A, spending a steady tick in A (which sets A's flag false), then
transitioning A to B and B back to A, A's first-update flag is true
again, and the first steady tick after the second entry invokes A's
update callback observing the flag true (leaving it false). -/
theorem C6_reentry_resets_flag (A B : GameState)
    (hA : A ≠ GameState.None) (hB : B ≠ GameState.None) :
    (c6Run A B).map (fun m => first_update_of m A) = some true ∧
    ((c6Run A B).bind (game_state_update quietEnv)).map
        (fun p => (p.2, p.1.state.current, first_update_of p.1 A)) =
      some ([updateOf A], A, false) := by
  revert hA hB
  revert A B
  decide

/-- C6 witness: the re-entry scenario at A = Boot, B = Attract. -/
theorem C6_reentry_resets_flag_witness :
    GameState.Boot ≠ GameState.None ∧
    GameState.Attract ≠ GameState.None ∧
    ((c6Run GameState.Boot GameState.Attract).map
        (fun m => first_update_of m GameState.Boot) = some true ∧
     ((c6Run GameState.Boot GameState.Attract).bind
         (game_state_update quietEnv)).map
        (fun p => (p.2, p.1.state.current,
          first_update_of p.1 GameState.Boot)) =
      some ([updateOf GameState.Boot], GameState.Boot, false)) :=
  ⟨by decide, by decide,
   C6_reentry_resets_flag GameState.Boot GameState.Attract
     (by decide) (by decide)⟩
